import Mathlib

/-!
Shallow embedding of `src/acr_cleaner.py` (wozorio/acr-cleaner): the
obsolescence-classification and safe-deletion engine of an Azure container
registry cleanup script.

Modelling conventions:
* timestamps are integers counting microseconds (Python `datetime` has
  microsecond resolution); `datetime.timedelta(days=d)` is `d * USEC_PER_DAY`
  microseconds and `timedelta.days` is floor division by `USEC_PER_DAY`
  (`Int.fdiv`, i.e. rounding toward negative infinity, as Python does);
* the wall clock is passed in as a single value `now` (the source calls
  `datetime.datetime.now` once per manifest iteration; the drift between
  iterations is real-time behaviour outside the embedding);
* `manifest.tags` is `Option (List String)`: `none` models Python `None`,
  `some []` an empty tag list; Python truthiness `bool(tags)` is `tagsTruthy`;
* a Python function that can `raise` is modelled with `Except String`;
* the regular expression `IMAGE_ID_PATTERN` is embedded as an executable
  matcher over `List Char` that searches all decompositions of the input,
  which is exactly the language accepted by the backtracking pattern
  `^([a-z]+.[a-z]+.[a-z].)/([a-z0-9, hyphen, slash]+)@([sha256:]+[a-fA-F0-9]{64}$)`
  (the dots are unescaped, so they match any character except newline;
  `[sha256:]+` is a repeated character class, not the literal `sha256:`; and
  the `$` anchor, without `re.MULTILINE`, matches at the very end of the
  input or just before a single newline that ends the input).
-/

/-- One day in microseconds: `datetime.timedelta(days=1)`. -/
def USEC_PER_DAY : Int := 86400000000

/-- Characters matched by `[a-z]`. -/
def isLowerAZ (c : Char) : Bool := 'a' ≤ c && c ≤ 'z'

/-- Characters matched by `[a-fA-F0-9]`. -/
def isHexDigitChar (c : Char) : Bool :=
  ('0' ≤ c && c ≤ '9') || ('a' ≤ c && c ≤ 'f') || ('A' ≤ c && c ≤ 'F')

/-- Characters matched by the class `[sha256:]`. -/
def isDigestClassChar (c : Char) : Bool :=
  c == 's' || c == 'h' || c == 'a' || c == '2' || c == '5' || c == '6' || c == ':'

/-- Characters matched by the class `[a-z0-9, hyphen, slash]`. -/
def isRepoChar (c : Char) : Bool :=
  isLowerAZ c || ('0' ≤ c && c ≤ '9') || c == '-' || c == '/'

/-- An unescaped `.` in the pattern: any character except a newline. -/
def isDotChar (c : Char) : Bool := c != '\n'

/-- The registry group `[a-z]+.[a-z]+.[a-z].` of `IMAGE_ID_PATTERN`:
one or more lowercase letters, any character, one or more lowercase letters,
any character, one lowercase letter, one more character. The matcher
enumerates the lengths of the two `[a-z]+` runs. -/
def registryMatch (l : List Char) : Bool :=
  (List.range l.length).any fun k =>
    0 < k && (l.take k).all isLowerAZ &&
      (match l.drop k with
       | c₁ :: rest₁ =>
         isDotChar c₁ &&
           (List.range rest₁.length).any fun m =>
             0 < m && (rest₁.take m).all isLowerAZ &&
               (match rest₁.drop m with
                | [c₂, a, c₃] => isDotChar c₂ && isLowerAZ a && isDotChar c₃
                | _ => false)
       | [] => false)

/-- The repository group `[a-z0-9, hyphen, slash]+` of `IMAGE_ID_PATTERN`. -/
def repoMatch (l : List Char) : Bool := !l.isEmpty && l.all isRepoChar

/-- Python's `$` anchor (no `re.MULTILINE`): it matches at the very end of
the input, or just before a single newline that ends the input. -/
def dollarAnchor (rest : List Char) : Bool := rest == [] || rest == ['\n']

/-- The digest group `[sha256:]+[a-fA-F0-9]{64}$` of `IMAGE_ID_PATTERN`:
one or more characters from the class `[sha256:]`, then exactly 64
hexadecimal characters, then the `$` anchor — so the validator also accepts
a well-formed identifier followed by one trailing newline. -/
def digestMatch (l : List Char) : Bool :=
  (List.range l.length).any fun m =>
    0 < m && (l.take m).all isDigestClassChar &&
      ((l.drop m).take 64).length == 64 && ((l.drop m).take 64).all isHexDigitChar &&
        dollarAnchor ((l.drop m).drop 64)

/-- One candidate decomposition of the input for `IMAGE_ID_PATTERN`:
the registry group is the first `i` characters, followed by a literal `/`,
the repository group is the next `j` characters, followed by a literal `@`,
and the digest group is the remainder. -/
def splitCheck (s : List Char) (i j : Nat) : Bool :=
  match s.drop i with
  | c :: rest =>
    c == '/' &&
      (match rest.drop j with
       | d :: dig =>
         d == '@' && registryMatch (s.take i) && repoMatch (rest.take j) && digestMatch dig
       | [] => false)
  | [] => false

/-- Acceptance of `IMAGE_ID_PATTERN` (`re.match`, pattern anchored by `^`
and a final `$`): some decomposition of the input matches. -/
def imageIdMatches (s : List Char) : Bool :=
  (List.range (s.length + 1)).any fun i =>
    (List.range (s.length + 1)).any fun j => splitCheck s i j

/-- The function `validate_image_id`: raises `RuntimeError` iff `IMAGE_ID_PATTERN`
does not match. -/
def validate_image_id (image_id : String) : Except String Unit :=
  if imageIdMatches image_id.data then Except.ok ()
  else Except.error ("Image URI format " ++ image_id ++ " is not valid")

/-- The `REPOS_WITH_JOB_IMAGES` constant. -/
def REPOS_WITH_JOB_IMAGES : List String := ["ingress-nginx/kube-webhook-certgen"]

/-- The predicate `is_exception_repository`: repositories excluded from scanning
(`repository.startswith("helm-charts") or repository in REPOS_WITH_JOB_IMAGES`;
the prefix test is taken on the character lists so that it evaluates by
definitional reduction). -/
def is_exception_repository (repository : String) : Bool :=
  "helm-charts".data.isPrefixOf repository.data || REPOS_WITH_JOB_IMAGES.contains repository

/-- The manifest metadata the classifier reads from
`acr_client.list_manifest_properties`. -/
structure Manifest where
  tags : Option (List String)
  digest : String
  last_updated_on : Int
  deriving Repr, DecidableEq

/-- The `Image` dataclass (with the derived `is_dangling` field). -/
structure Image where
  repository : String
  tags : Option (List String)
  digest : String
  age : Int
  is_dangling : Bool
  deriving Repr, DecidableEq

/-- Python truthiness of a tag list: `bool(tags)`. -/
def tagsTruthy : Option (List String) → Bool
  | none => false
  | some l => !l.isEmpty

/-- Constructing an `Image`: the dataclass `__post_init__` hook sets
`is_dangling = bool(self.tags)`. -/
def Image.make (repository : String) (tags : Option (List String))
    (digest : String) (age : Int) : Image :=
  ⟨repository, tags, digest, age, tagsTruthy tags⟩

/-- Python `(today - image_last_update).days`: whole-day difference, floor division
toward negative infinity as in Python. -/
def age_days (now last_updated_on : Int) : Int :=
  Int.fdiv (now - last_updated_on) USEC_PER_DAY

/-- The eligibility condition of line 195:
`manifest.tags is None or (today - image_last_update) > timedelta(days=max_image_age_days)`. -/
def eligible (now : Int) (max_image_age_days : Int) (m : Manifest) : Bool :=
  m.tags.isNone || decide (now - m.last_updated_on > max_image_age_days * USEC_PER_DAY)

/-- Python `registry_uri.removeprefix("https://")` (on the character lists, so that
it evaluates by definitional reduction; `https://` is 8 characters). -/
def removeHttps (registry_uri : String) : String :=
  if "https://".data.isPrefixOf registry_uri.data then String.mk (registry_uri.data.drop 8)
  else registry_uri

/-- The canonical identifier synthesized at line 196:
`registry_uri.removeprefix("https://") + "/" + repository + "@" + manifest.digest`. -/
def image_id (registry_uri repository digest : String) : String :=
  removeHttps registry_uri ++ "/" ++ repository ++ "@" ++ digest

/-- The inner loop of `fetch_obsolete_images` over one repository's manifest
stream: eligible manifests have their identifier validated (a failure raises
and aborts the run), deployed identifiers go to the in-use list, the rest to
the obsolete list, in stream order. Returns `(obsolete, in_use)`. -/
def classifyManifests (now max_image_age_days : Int) (registry_uri : String)
    (deployed_images : List String) (repository : String) :
    List Manifest → Except String (List Image × List Image)
  | [] => Except.ok ([], [])
  | m :: rest =>
    if eligible now max_image_age_days m then
      match validate_image_id (image_id registry_uri repository m.digest) with
      | Except.error e => Except.error e
      | Except.ok _ =>
        match classifyManifests now max_image_age_days registry_uri deployed_images
            repository rest with
        | Except.error e => Except.error e
        | Except.ok (obsolete, in_use) =>
          if deployed_images.contains (image_id registry_uri repository m.digest) then
            Except.ok (obsolete,
              Image.make repository m.tags m.digest (age_days now m.last_updated_on) :: in_use)
          else
            Except.ok (
              Image.make repository m.tags m.digest (age_days now m.last_updated_on) :: obsolete,
              in_use)
    else
      classifyManifests now max_image_age_days registry_uri deployed_images repository rest

/-- The function `fetch_obsolete_images`: scans the repositories in order, skipping
exception repositories, and accumulates `(obsolete_images, images_in_use)`
across repositories in iteration order. The input pairs each repository name
with its manifest stream. -/
def fetch_obsolete_images (now max_image_age_days : Int) (registry_uri : String)
    (deployed_images : List String) :
    List (String × List Manifest) → Except String (List Image × List Image)
  | [] => Except.ok ([], [])
  | (repository, manifests) :: rest =>
    if is_exception_repository repository then
      fetch_obsolete_images now max_image_age_days registry_uri deployed_images rest
    else
      match classifyManifests now max_image_age_days registry_uri deployed_images
          repository manifests with
      | Except.error e => Except.error e
      | Except.ok (obs₁, use₁) =>
        match fetch_obsolete_images now max_image_age_days registry_uri deployed_images rest with
        | Except.error e => Except.error e
        | Except.ok (obs₂, use₂) => Except.ok (obs₁ ++ obs₂, use₁ ++ use₂)

/-- The function `delete_obsolete_images`: iterates the obsolete list, reporting and then
deleting each image. The source has no exception handling here, so a failing
`delete_manifest` call propagates and ends the loop. The model returns the
list of `(repository, digest)` pairs actually attempted, and the error that
aborted the loop, if any. -/
def delete_obsolete_images (delete_manifest : String → String → Except String Unit) :
    List Image → List (String × String) × Option String
  | [] => ([], none)
  | image :: rest =>
    match delete_manifest image.repository image.digest with
    | Except.error e => ([(image.repository, image.digest)], some e)
    | Except.ok _ =>
      let (attempts, err) := delete_obsolete_images delete_manifest rest
      ((image.repository, image.digest) :: attempts, err)

/-! Definitions taken from the specification's words (for comparison) -/

/-- Modelled from the spec: "Dangling image: an image manifest with no
associated tags", "`isDangling` true iff `tags` is empty/absent". -/
def specDangling : Option (List String) → Bool
  | none => true
  | some l => l.isEmpty

/-- Modelled from the spec: "a manifest is eligible for deletion
consideration iff it is dangling (no tags) OR its age strictly exceeds
`maxAgeDays`". -/
def specEligible (now : Int) (max_image_age_days : Int) (m : Manifest) : Bool :=
  specDangling m.tags || decide (now - m.last_updated_on > max_image_age_days * USEC_PER_DAY)

/-- Modelled from the spec: "`digestSpec` is the literal algorithm prefix
`sha256:` followed by exactly 64 hexadecimal characters". -/
def literalSha256Digest (l : List Char) : Bool :=
  l.take 7 == "sha256:".data && (l.drop 7).length == 64 && (l.drop 7).all isHexDigitChar

/-! Characterization of the classifier

`goodPair` states that a `(repository, manifest)` pair cannot abort the run
(either it is not eligible, or its synthesized identifier validates);
`obsPair`/`usePair` compute the image the pair contributes to the obsolete
respectively in-use output, if any; `scanStream` is the sequence of
`(repository, manifest)` pairs the scan visits, in order. -/

def goodPair (now a : Int) (uri : String) (p : String × Manifest) : Bool :=
  !eligible now a p.2 || imageIdMatches (image_id uri p.1 p.2.digest).data

def obsPair (now a : Int) (uri : String) (dep : List String) (p : String × Manifest) :
    Option Image :=
  if eligible now a p.2 && !(dep.contains (image_id uri p.1 p.2.digest)) then
    some (Image.make p.1 p.2.tags p.2.digest (age_days now p.2.last_updated_on))
  else none

def usePair (now a : Int) (uri : String) (dep : List String) (p : String × Manifest) :
    Option Image :=
  if eligible now a p.2 && dep.contains (image_id uri p.1 p.2.digest) then
    some (Image.make p.1 p.2.tags p.2.digest (age_days now p.2.last_updated_on))
  else none

def scanStream : List (String × List Manifest) → List (String × Manifest)
  | [] => []
  | (r, ms) :: rest =>
    (if is_exception_repository r then [] else ms.map fun m => (r, m)) ++ scanStream rest

theorem classifyManifests_ok_of_good (now a : Int) (uri : String) (dep : List String)
    (repo : String) (ms : List Manifest) :
    (∀ m ∈ ms, goodPair now a uri (repo, m) = true) →
      classifyManifests now a uri dep repo ms =
        Except.ok (ms.filterMap fun m => obsPair now a uri dep (repo, m),
          ms.filterMap fun m => usePair now a uri dep (repo, m)) := by
  induction ms with
  | nil => intro _; simp [classifyManifests]
  | cons m rest ih =>
    intro hall
    have hgood := hall m (List.mem_cons_self m rest)
    have hrest := ih fun m' hm' => hall m' (List.mem_cons_of_mem _ hm')
    by_cases he : eligible now a m = true
    · have hv : imageIdMatches (image_id uri repo m.digest).data = true := by
        simpa [goodPair, he] using hgood
      by_cases hc : dep.contains (image_id uri repo m.digest) = true
      · have hcm : image_id uri repo m.digest ∈ dep := by simpa using hc
        simp [classifyManifests, validate_image_id, he, hv, hc, hcm, hrest, obsPair, usePair,
          List.filterMap_cons]
      · replace hc : dep.contains (image_id uri repo m.digest) = false :=
          Bool.not_eq_true _ ▸ hc
        have hcm : image_id uri repo m.digest ∉ dep := by simpa using hc
        simp [classifyManifests, validate_image_id, he, hv, hc, hcm, hrest, obsPair, usePair,
          List.filterMap_cons]
    · replace he : eligible now a m = false := Bool.not_eq_true _ ▸ he
      simp [classifyManifests, he, hrest, obsPair, usePair, List.filterMap_cons]

theorem classifyManifests_ok_elim (now a : Int) (uri : String) (dep : List String)
    (repo : String) (ms : List Manifest) (x : List Image × List Image) :
    classifyManifests now a uri dep repo ms = Except.ok x →
      (∀ m ∈ ms, goodPair now a uri (repo, m) = true) ∧
        x = (ms.filterMap fun m => obsPair now a uri dep (repo, m),
             ms.filterMap fun m => usePair now a uri dep (repo, m)) := by
  intro h
  have hgood : ∀ m ∈ ms, goodPair now a uri (repo, m) = true := by
    induction ms generalizing x with
    | nil => simp
    | cons m rest ih =>
      intro m' hm'
      by_cases he : eligible now a m = true
      · by_cases hv : imageIdMatches (image_id uri repo m.digest).data = true
        · rcases List.mem_cons.mp hm' with rfl | hm'
          · simp [goodPair, hv]
          · cases hrest : classifyManifests now a uri dep repo rest with
            | error e =>
              simp [classifyManifests, validate_image_id, he, hv, hrest] at h
            | ok y =>
              obtain ⟨o, u⟩ := y
              exact ih (o, u) hrest m' hm'
        · replace hv : imageIdMatches (image_id uri repo m.digest).data = false :=
            Bool.not_eq_true _ ▸ hv
          simp [classifyManifests, validate_image_id, he, hv] at h
      · replace he : eligible now a m = false := Bool.not_eq_true _ ▸ he
        simp only [classifyManifests, he, Bool.false_eq_true, reduceIte] at h
        rcases List.mem_cons.mp hm' with rfl | hm'
        · simp [goodPair, he]
        · exact ih x h m' hm'
  refine ⟨hgood, ?_⟩
  have := classifyManifests_ok_of_good now a uri dep repo ms hgood
  rw [this] at h
  injection h with h
  exact h.symm

theorem fetch_ok_of_good (now a : Int) (uri : String) (dep : List String)
    (reps : List (String × List Manifest)) :
    (∀ p ∈ scanStream reps, goodPair now a uri p = true) →
      fetch_obsolete_images now a uri dep reps =
        Except.ok ((scanStream reps).filterMap (obsPair now a uri dep),
          (scanStream reps).filterMap (usePair now a uri dep)) := by
  induction reps with
  | nil => intro _; simp [fetch_obsolete_images, scanStream]
  | cons hd rest ih =>
    obtain ⟨r, ms⟩ := hd
    intro hall
    by_cases hex : is_exception_repository r = true
    · have hs : scanStream ((r, ms) :: rest) = scanStream rest := by simp [scanStream, hex]
      rw [hs] at hall
      simp only [fetch_obsolete_images, hex, reduceIte, hs]
      exact ih hall
    · replace hex : is_exception_repository r = false := Bool.not_eq_true _ ▸ hex
      have hs : scanStream ((r, ms) :: rest) = ms.map (fun m => (r, m)) ++ scanStream rest := by
        simp [scanStream, hex]
      rw [hs] at hall
      obtain ⟨hall₁, hall₂⟩ := List.forall_mem_append.mp hall
      have hall₁' : ∀ m ∈ ms, goodPair now a uri (r, m) = true := fun m hm =>
        hall₁ _ (List.mem_map_of_mem _ hm)
      have hcm := classifyManifests_ok_of_good now a uri dep r ms hall₁'
      have hfr := ih hall₂
      simp only [fetch_obsolete_images, hex, Bool.false_eq_true, reduceIte, hcm, hfr, hs,
        List.filterMap_append, List.filterMap_map]
      rfl

theorem fetch_ok_elim (now a : Int) (uri : String) (dep : List String)
    (reps : List (String × List Manifest)) (x : List Image × List Image) :
    fetch_obsolete_images now a uri dep reps = Except.ok x →
      (∀ p ∈ scanStream reps, goodPair now a uri p = true) ∧
        x = ((scanStream reps).filterMap (obsPair now a uri dep),
             (scanStream reps).filterMap (usePair now a uri dep)) := by
  intro h
  have hgood : ∀ p ∈ scanStream reps, goodPair now a uri p = true := by
    induction reps generalizing x with
    | nil => simp [scanStream]
    | cons hd rest ih =>
      obtain ⟨r, ms⟩ := hd
      by_cases hex : is_exception_repository r = true
      · have hs : scanStream ((r, ms) :: rest) = scanStream rest := by simp [scanStream, hex]
        rw [hs]
        simp only [fetch_obsolete_images, hex, reduceIte] at h
        exact ih x h
      · replace hex : is_exception_repository r = false := Bool.not_eq_true _ ▸ hex
        have hs : scanStream ((r, ms) :: rest) = ms.map (fun m => (r, m)) ++ scanStream rest := by
          simp [scanStream, hex]
        rw [hs]
        simp only [fetch_obsolete_images, hex, Bool.false_eq_true, reduceIte] at h
        cases hcm : classifyManifests now a uri dep r ms with
        | error e => rw [hcm] at h; cases h
        | ok y =>
          rw [hcm] at h
          cases hfr : fetch_obsolete_images now a uri dep rest with
          | error e => rw [hfr] at h; obtain ⟨o₁, u₁⟩ := y; cases h
          | ok y₂ =>
            rw [hfr] at h
            obtain ⟨o₁, u₁⟩ := y
            obtain ⟨o₂, u₂⟩ := y₂
            obtain ⟨hall₁, -⟩ := classifyManifests_ok_elim now a uri dep r ms (o₁, u₁) hcm
            refine List.forall_mem_append.mpr ⟨?_, ih (o₂, u₂) hfr⟩
            intro p hp
            obtain ⟨m, hm, rfl⟩ := List.mem_map.mp hp
            exact hall₁ m hm
  refine ⟨hgood, ?_⟩
  have := fetch_ok_of_good now a uri dep reps hgood
  rw [this] at h
  injection h with h
  exact h.symm

theorem mem_scanStream_of_mem (reps : List (String × List Manifest)) (r : String)
    (ms : List Manifest) (m : Manifest) (hmem : (r, ms) ∈ reps)
    (hex : is_exception_repository r = false) (hm : m ∈ ms) :
    (r, m) ∈ scanStream reps := by
  induction reps with
  | nil => cases hmem
  | cons hd rest ih =>
    obtain ⟨r', ms'⟩ := hd
    rcases List.mem_cons.mp hmem with heq | hmem
    · injection heq with h1 h2
      subst h1; subst h2
      simp only [scanStream, hex, Bool.false_eq_true, reduceIte]
      exact List.mem_append_left _ (List.mem_map_of_mem _ hm)
    · simp only [scanStream]
      exact List.mem_append_right _ (ih hmem)

theorem scanStream_not_exempt (reps : List (String × List Manifest))
    (p : String × Manifest) (hp : p ∈ scanStream reps) :
    is_exception_repository p.1 = false := by
  induction reps with
  | nil => cases hp
  | cons hd rest ih =>
    obtain ⟨r, ms⟩ := hd
    simp only [scanStream] at hp
    rcases List.mem_append.mp hp with h1 | h2
    · by_cases hex : is_exception_repository r = true
      · rw [if_pos hex] at h1; cases h1
      · rw [if_neg hex] at h1
        obtain ⟨m, -, rfl⟩ := List.mem_map.mp h1
        exact Bool.not_eq_true _ ▸ hex
    · exact ih h2

theorem Image.make_repository (r : String) (t : Option (List String)) (d : String) (g : Int) :
    (Image.make r t d g).repository = r := rfl

theorem Image.make_digest (r : String) (t : Option (List String)) (d : String) (g : Int) :
    (Image.make r t d g).digest = d := rfl

theorem obsPair_some_elim (now a : Int) (uri : String) (dep : List String)
    (p : String × Manifest) (img : Image) (h : obsPair now a uri dep p = some img) :
    img = Image.make p.1 p.2.tags p.2.digest (age_days now p.2.last_updated_on) ∧
      eligible now a p.2 = true ∧ dep.contains (image_id uri p.1 p.2.digest) = false := by
  by_cases hc : (eligible now a p.2 && !(dep.contains (image_id uri p.1 p.2.digest))) = true
  · rw [obsPair, if_pos hc] at h
    injection h with h
    obtain ⟨he, hnc⟩ := Bool.and_eq_true .. ▸ hc
    exact ⟨h.symm, he, by simpa using hnc⟩
  · rw [obsPair, if_neg hc] at h; cases h

theorem usePair_some_elim (now a : Int) (uri : String) (dep : List String)
    (p : String × Manifest) (img : Image) (h : usePair now a uri dep p = some img) :
    img = Image.make p.1 p.2.tags p.2.digest (age_days now p.2.last_updated_on) ∧
      eligible now a p.2 = true ∧ dep.contains (image_id uri p.1 p.2.digest) = true := by
  by_cases hc : (eligible now a p.2 && dep.contains (image_id uri p.1 p.2.digest)) = true
  · rw [usePair, if_pos hc] at h
    injection h with h
    obtain ⟨he, hnc⟩ := Bool.and_eq_true .. ▸ hc
    exact ⟨h.symm, he, hnc⟩
  · rw [usePair, if_neg hc] at h; cases h

theorem mem_obsolete_of_scan (now a : Int) (uri : String) (dep : List String)
    (reps : List (String × List Manifest)) (obs prot : List Image)
    (r : String) (m : Manifest)
    (hok : fetch_obsolete_images now a uri dep reps = Except.ok (obs, prot))
    (hmem : (r, m) ∈ scanStream reps) (he : eligible now a m = true)
    (hc : dep.contains (image_id uri r m.digest) = false) :
    Image.make r m.tags m.digest (age_days now m.last_updated_on) ∈ obs := by
  obtain ⟨-, hx⟩ := fetch_ok_elim now a uri dep reps (obs, prot) hok
  have hobs : obs = (scanStream reps).filterMap (obsPair now a uri dep) :=
    congrArg Prod.fst hx
  rw [hobs]
  refine List.mem_filterMap.mpr ⟨(r, m), hmem, ?_⟩
  have hcm : image_id uri r m.digest ∉ dep := by simpa using hc
  simp [obsPair, he, hcm]

theorem mem_in_use_of_scan (now a : Int) (uri : String) (dep : List String)
    (reps : List (String × List Manifest)) (obs prot : List Image)
    (r : String) (m : Manifest)
    (hok : fetch_obsolete_images now a uri dep reps = Except.ok (obs, prot))
    (hmem : (r, m) ∈ scanStream reps) (he : eligible now a m = true)
    (hc : dep.contains (image_id uri r m.digest) = true) :
    Image.make r m.tags m.digest (age_days now m.last_updated_on) ∈ prot := by
  obtain ⟨-, hx⟩ := fetch_ok_elim now a uri dep reps (obs, prot) hok
  have hprot : prot = (scanStream reps).filterMap (usePair now a uri dep) :=
    congrArg Prod.snd hx
  rw [hprot]
  refine List.mem_filterMap.mpr ⟨(r, m), hmem, ?_⟩
  have hcm : image_id uri r m.digest ∈ dep := by simpa using hc
  simp [usePair, he, hcm]

theorem mem_obsolete_elim (now a : Int) (uri : String) (dep : List String)
    (reps : List (String × List Manifest)) (obs prot : List Image) (img : Image)
    (hok : fetch_obsolete_images now a uri dep reps = Except.ok (obs, prot))
    (himg : img ∈ obs) :
    ∃ p ∈ scanStream reps,
      img = Image.make p.1 p.2.tags p.2.digest (age_days now p.2.last_updated_on) ∧
        eligible now a p.2 = true ∧ dep.contains (image_id uri p.1 p.2.digest) = false := by
  obtain ⟨-, hx⟩ := fetch_ok_elim now a uri dep reps (obs, prot) hok
  have hobs : obs = (scanStream reps).filterMap (obsPair now a uri dep) :=
    congrArg Prod.fst hx
  rw [hobs] at himg
  obtain ⟨p, hp, hsome⟩ := List.mem_filterMap.mp himg
  exact ⟨p, hp, obsPair_some_elim now a uri dep p img hsome⟩

theorem mem_in_use_elim (now a : Int) (uri : String) (dep : List String)
    (reps : List (String × List Manifest)) (obs prot : List Image) (img : Image)
    (hok : fetch_obsolete_images now a uri dep reps = Except.ok (obs, prot))
    (himg : img ∈ prot) :
    ∃ p ∈ scanStream reps,
      img = Image.make p.1 p.2.tags p.2.digest (age_days now p.2.last_updated_on) ∧
        eligible now a p.2 = true ∧ dep.contains (image_id uri p.1 p.2.digest) = true := by
  obtain ⟨-, hx⟩ := fetch_ok_elim now a uri dep reps (obs, prot) hok
  have hprot : prot = (scanStream reps).filterMap (usePair now a uri dep) :=
    congrArg Prod.snd hx
  rw [hprot] at himg
  obtain ⟨p, hp, hsome⟩ := List.mem_filterMap.mp himg
  exact ⟨p, hp, usePair_some_elim now a uri dep p img hsome⟩

/-! Claim theorems -/

/-- C3: every eligible manifest of a scanned (non-exempt) repository whose
synthesized canonical identifier is in the deployed set is appended to the
in-use (protected-stale) list and never to the obsolete list; every eligible
manifest whose identifier is not in the set is appended to the obsolete list;
and the two output lists of `fetch_obsolete_images` are disjoint. -/
theorem fetch_partition_protection
    (now a : Int) (uri : String) (dep : List String)
    (reps : List (String × List Manifest)) (obs prot : List Image)
    (repo : String) (ms : List Manifest) (m : Manifest)
    (hok : fetch_obsolete_images now a uri dep reps = Except.ok (obs, prot))
    (hmem : (repo, ms) ∈ reps) (hex : is_exception_repository repo = false)
    (hm : m ∈ ms) (he : eligible now a m = true) :
    (dep.contains (image_id uri repo m.digest) = true →
        Image.make repo m.tags m.digest (age_days now m.last_updated_on) ∈ prot ∧
          Image.make repo m.tags m.digest (age_days now m.last_updated_on) ∉ obs) ∧
      (dep.contains (image_id uri repo m.digest) = false →
        Image.make repo m.tags m.digest (age_days now m.last_updated_on) ∈ obs) ∧
      (∀ img ∈ obs, img ∉ prot) := by
  have hscan := mem_scanStream_of_mem reps repo ms m hmem hex hm
  refine ⟨fun hc => ⟨mem_in_use_of_scan now a uri dep reps obs prot repo m hok hscan he hc, ?_⟩,
    fun hc => mem_obsolete_of_scan now a uri dep reps obs prot repo m hok hscan he hc, ?_⟩
  · intro habs
    obtain ⟨p, -, heq, -, hpc⟩ := mem_obsolete_elim now a uri dep reps obs prot _ hok habs
    have h1 : repo = p.1 := congrArg Image.repository heq
    have h2 : m.digest = p.2.digest := congrArg Image.digest heq
    rw [← h1, ← h2, hc] at hpc
    cases hpc
  · intro img h1 h2
    obtain ⟨p, -, hpe, -, hpc⟩ := mem_obsolete_elim now a uri dep reps obs prot img hok h1
    obtain ⟨q, -, hqe, -, hqc⟩ := mem_in_use_elim now a uri dep reps obs prot img hok h2
    have e1 : img.repository = p.1 := congrArg Image.repository hpe
    have e2 : img.digest = p.2.digest := congrArg Image.digest hpe
    have e3 : img.repository = q.1 := congrArg Image.repository hqe
    have e4 : img.digest = q.2.digest := congrArg Image.digest hqe
    rw [← e1, ← e2] at hpc
    rw [← e3, ← e4, hpc] at hqc
    cases hqc

/-- C4: no image from a repository for which `is_exception_repository` is
true appears in either output list of `fetch_obsolete_images`. -/
theorem fetch_excludes_exception_repositories
    (now a : Int) (uri : String) (dep : List String)
    (reps : List (String × List Manifest)) (obs prot : List Image)
    (hok : fetch_obsolete_images now a uri dep reps = Except.ok (obs, prot)) :
    ∀ img : Image, img ∈ obs ∨ img ∈ prot →
      is_exception_repository img.repository = false := by
  intro img h
  rcases h with h | h
  · obtain ⟨p, hp, heq, -, -⟩ := mem_obsolete_elim now a uri dep reps obs prot img hok h
    have h1 : img.repository = p.1 := congrArg Image.repository heq
    rw [h1]
    exact scanStream_not_exempt reps p hp
  · obtain ⟨p, hp, heq, -, -⟩ := mem_in_use_elim now a uri dep reps obs prot img hok h
    have h1 : img.repository = p.1 := congrArg Image.repository heq
    rw [h1]
    exact scanStream_not_exempt reps p hp

/-- C9: classification is deterministic and order-independent: for a fixed
clock, threshold and deployed set, permuting the scanned
`(repository, manifest)` stream permutes the two output lists of
`fetch_obsolete_images` (identical multiset membership); taking
`reps₂ = reps₁` gives the run-twice case. -/
theorem fetch_perm_invariant (now a : Int) (uri : String) (dep : List String)
    (reps₁ reps₂ : List (String × List Manifest)) (o₁ p₁ : List Image)
    (hperm : (scanStream reps₁).Perm (scanStream reps₂))
    (h₁ : fetch_obsolete_images now a uri dep reps₁ = Except.ok (o₁, p₁)) :
    ∃ o₂ p₂, fetch_obsolete_images now a uri dep reps₂ = Except.ok (o₂, p₂) ∧
      o₁.Perm o₂ ∧ p₁.Perm p₂ := by
  obtain ⟨hall, hx⟩ := fetch_ok_elim now a uri dep reps₁ (o₁, p₁) h₁
  have ho : o₁ = (scanStream reps₁).filterMap (obsPair now a uri dep) :=
    congrArg Prod.fst hx
  have hp : p₁ = (scanStream reps₁).filterMap (usePair now a uri dep) :=
    congrArg Prod.snd hx
  have hall₂ : ∀ p ∈ scanStream reps₂, goodPair now a uri p = true := fun p hp2 =>
    hall p (hperm.mem_iff.mpr hp2)
  refine ⟨_, _, fetch_ok_of_good now a uri dep reps₂ hall₂, ?_, ?_⟩
  · rw [ho]; exact hperm.filterMap _
  · rw [hp]; exact hperm.filterMap _

/-! Concrete example values -/

def exDigest : String := "sha256:" ++ String.mk (List.replicate 64 '0')

def exDigest2 : String := "sha256:" ++ String.mk (List.replicate 64 '1')

def exUri : String := "https://myreg.azurecr.io"

def exId : String := image_id exUri "app" exDigest

def exManifest : Manifest := ⟨some ["v1"], exDigest, 0⟩

def exNow : Int := 40 * USEC_PER_DAY

def exImage : Image := Image.make "app" (some ["v1"]) exDigest 40

/-- C1 (code bug): `__post_init__` sets `is_dangling = bool(self.tags)`,
which is true exactly when the manifest HAS tags — the negation of the
specified derived attribute (true iff tags is empty/absent): an image built
with an empty tag list or absent tags gets `is_dangling = false`, while a
tagged image gets `is_dangling = true`. -/
theorem is_dangling_is_inverted :
    (Image.make "app" (some []) exDigest 5).is_dangling = false ∧
      specDangling (some []) = true ∧
      (Image.make "app" none exDigest 5).is_dangling = false ∧
      specDangling none = true ∧
      (Image.make "app" (some ["v1"]) exDigest 5).is_dangling = true ∧
      specDangling (some ["v1"]) = false :=
  ⟨rfl, rfl, rfl, rfl, rfl, rfl⟩

/-- C2 counterexample: a manifest with an empty (present, zero-length) tag
list and age below the threshold is NOT eligible under the code's test
`manifest.tags is None`, although the claim makes every empty-tags manifest
eligible independent of age. -/
theorem empty_tags_young_manifest_not_eligible :
    eligible 0 30 ⟨some [], exDigest, 0⟩ = false ∧
      specEligible 0 30 ⟨some [], exDigest, 0⟩ = true :=
  ⟨rfl, rfl⟩

/-- C2 (amended): a manifest is eligible for deletion consideration iff its
tags field is absent (`None`) or the full timestamp difference strictly
exceeds the threshold; a manifest with absent tags is always eligible, but
one with an empty present tag list is eligible only through the age branch. -/
theorem eligible_iff_none_or_over_age (now a : Int) (m : Manifest) :
    eligible now a m = true ↔
      (m.tags = none ∨ now - m.last_updated_on > a * USEC_PER_DAY) := by
  cases ht : m.tags <;> simp [eligible, ht]

/-- C5 counterexample: with `maxAgeDays = 0` a non-dangling, non-deployed,
non-exempt image whose last update equals the clock (timestamp difference
zero) is NOT classified obsolete: the strict comparison `> timedelta(0)`
fails, contradicting "regardless of the value of its last-update timestamp
relative to now". -/
theorem cleanup_all_equal_timestamp_not_obsolete :
    is_exception_repository "app" = false ∧
      tagsTruthy (some ["latest"]) = true ∧
      fetch_obsolete_images 0 0 exUri [] [("app", [⟨some ["latest"], exDigest, 0⟩])] =
        Except.ok ([], []) :=
  ⟨rfl, rfl, rfl⟩

/-- C5 (amended): when `maxAgeDays = 0`, every non-dangling, non-deployed
image from a non-exempt repository whose last update lies strictly before
the clock is classified obsolete, regardless of how small its age is. -/
theorem cleanup_all_strictly_past_is_obsolete
    (now : Int) (uri : String) (dep : List String)
    (reps : List (String × List Manifest)) (obs prot : List Image)
    (repo : String) (ms : List Manifest) (m : Manifest) (ts : List String)
    (hok : fetch_obsolete_images now 0 uri dep reps = Except.ok (obs, prot))
    (hmem : (repo, ms) ∈ reps) (hex : is_exception_repository repo = false)
    (hm : m ∈ ms) (htags : m.tags = some ts) (hts : ts ≠ [])
    (hpast : m.last_updated_on < now)
    (hdep : dep.contains (image_id uri repo m.digest) = false) :
    Image.make repo m.tags m.digest (age_days now m.last_updated_on) ∈ obs := by
  have he : eligible now 0 m = true := by
    simp only [eligible, htags, Option.isNone_some, Bool.false_or, decide_eq_true_eq]
    omega
  exact mem_obsolete_of_scan now 0 uri dep reps obs prot repo m hok
    (mem_scanStream_of_mem reps repo ms m hmem hex hm) he hdep

/-- C10 counterexample: for a manifest whose `lastUpdatedOn` lies one day in
the future of the clock, the derived whole-day age is `-1`: the age is not a
non-negative integer for every timestamp. -/
theorem age_days_negative_for_future_timestamp :
    age_days 0 USEC_PER_DAY = -1 :=
  rfl

/-- C10 (amended): whenever `lastUpdatedOn ≤ now`, the derived age is a
non-negative integer and is exactly the whole-day floor of the timestamp
difference; a future `lastUpdatedOn` instead yields a negative value. -/
theorem age_days_nonneg_floor (now last : Int) (h : last ≤ now) :
    0 ≤ age_days now last ∧
      age_days now last * USEC_PER_DAY ≤ now - last ∧
      now - last < (age_days now last + 1) * USEC_PER_DAY := by
  have hd : (0 : Int) < USEC_PER_DAY := by norm_num [USEC_PER_DAY]
  have hfe : age_days now last = (now - last) / USEC_PER_DAY :=
    Int.fdiv_eq_ediv _ hd.le
  refine ⟨?_, ?_, ?_⟩
  · exact Int.fdiv_nonneg (by omega) hd.le
  · rw [hfe]; exact Int.ediv_mul_le _ hd.ne'
  · rw [hfe]; exact Int.lt_ediv_add_one_mul_self _ hd

/-- Witness for the amended C10 statement at a concrete input. -/
theorem age_days_nonneg_floor_witness :
    0 ≤ age_days (2 * USEC_PER_DAY + 1) 0 ∧
      age_days (2 * USEC_PER_DAY + 1) 0 * USEC_PER_DAY ≤ 2 * USEC_PER_DAY + 1 - 0 ∧
      2 * USEC_PER_DAY + 1 - 0 < (age_days (2 * USEC_PER_DAY + 1) 0 + 1) * USEC_PER_DAY :=
  age_days_nonneg_floor (2 * USEC_PER_DAY + 1) 0 (by norm_num [USEC_PER_DAY])

def failing_delete : String → String → Except String Unit :=
  fun repository _ => if repository == "app-a" then Except.error "503" else Except.ok ()

/-- C8 counterexample: with a delete collaborator failing on the first image,
`delete_obsolete_images` attempts only that image: the error propagates and
the second image's delete is never attempted, contradicting the claim that
iteration continues past a failed per-image delete. -/
theorem delete_failure_aborts_iteration :
    delete_obsolete_images failing_delete
        [Image.make "app-a" none "d1" 3, Image.make "app-b" none "d2" 7] =
      ([("app-a", "d1")], some "503") ∧
      ("app-b", "d2") ∉ (delete_obsolete_images failing_delete
        [Image.make "app-a" none "d1" 3, Image.make "app-b" none "d2" 7]).1 :=
  ⟨rfl, by decide⟩

/-- C8 (amended): deletion is not best-effort: if the delete collaborator
succeeds on every image of `pre` and fails on `img`, the run attempts exactly
`pre ++ [img]` in order, surfaces that error, and never attempts the images
after `img`. -/
theorem delete_stops_at_first_failure
    (delete_manifest : String → String → Except String Unit)
    (pre : List Image) (img : Image) (rest : List Image) (e : String)
    (hpre : ∀ i ∈ pre, delete_manifest i.repository i.digest = Except.ok ())
    (himg : delete_manifest img.repository img.digest = Except.error e) :
    delete_obsolete_images delete_manifest (pre ++ img :: rest) =
      ((pre ++ [img]).map fun i => (i.repository, i.digest), some e) := by
  induction pre with
  | nil => simp [delete_obsolete_images, himg]
  | cons i pre ih =>
    have hi := hpre i (List.mem_cons_self i pre)
    have h' := ih fun j hj => hpre j (List.mem_cons_of_mem _ hj)
    simp [delete_obsolete_images, hi, h']

/-- Witness for the amended C8 statement at a concrete input. -/
theorem delete_stops_at_first_failure_witness :
    delete_obsolete_images failing_delete
        [Image.make "app-z" none "d0" 1, Image.make "app-a" none "d1" 3,
          Image.make "app-b" none "d2" 7] =
      (([Image.make "app-z" none "d0" 1, Image.make "app-a" none "d1" 3]).map
          fun i => (i.repository, i.digest), some "503") :=
  delete_stops_at_first_failure failing_delete [Image.make "app-z" none "d0" 1]
    (Image.make "app-a" none "d1" 3) [Image.make "app-b" none "d2" 7] "503"
    (by intro i hi; rcases List.mem_singleton.mp hi with rfl; rfl) rfl

/-! Round-trip lemmas for `IMAGE_ID_PATTERN` -/

theorem imageIdMatches_of_parts (A B C : List Char)
    (hA : registryMatch A = true) (hB : repoMatch B = true) (hC : digestMatch C = true) :
    imageIdMatches (A ++ '/' :: (B ++ '@' :: C)) = true := by
  have hd1 : (A ++ '/' :: (B ++ '@' :: C)).drop A.length = '/' :: (B ++ '@' :: C) :=
    List.drop_left A _
  have ht1 : (A ++ '/' :: (B ++ '@' :: C)).take A.length = A := List.take_left A _
  have hd2 : (B ++ '@' :: C).drop B.length = '@' :: C := List.drop_left B _
  have ht2 : (B ++ '@' :: C).take B.length = B := List.take_left B _
  apply List.any_eq_true.mpr
  refine ⟨A.length, List.mem_range.mpr (by simp [List.length_append]; omega), ?_⟩
  apply List.any_eq_true.mpr
  refine ⟨B.length, List.mem_range.mpr (by simp [List.length_append]; omega), ?_⟩
  simp only [splitCheck, hd1, hd2, ht1, ht2, hA, hB, hC]
  simp

theorem digestMatch_sha256_hex (hex : List Char) (hlen : hex.length = 64)
    (hhex : hex.all isHexDigitChar = true) :
    digestMatch ("sha256:".data ++ hex) = true := by
  have h7 : ("sha256:".data).length = 7 := rfl
  have ht : ("sha256:".data ++ hex).take 7 = "sha256:".data := List.take_left' h7
  have hd : ("sha256:".data ++ hex).drop 7 = hex := List.drop_left' h7
  have htake : hex.take 64 = hex := List.take_of_length_le (le_of_eq hlen)
  have hdrop : hex.drop 64 = [] := List.drop_eq_nil_of_le (le_of_eq hlen)
  apply List.any_eq_true.mpr
  refine ⟨7, List.mem_range.mpr (by simp [List.length_append, h7, hlen]), ?_⟩
  simp only [ht, hd, htake, hdrop, hhex, hlen]
  decide

theorem imageIdMatches_elim (s : List Char) (h : imageIdMatches s = true) :
    ∃ A B C, s = A ++ '/' :: (B ++ '@' :: C) ∧
      registryMatch A = true ∧ repoMatch B = true ∧ digestMatch C = true := by
  obtain ⟨i, -, hi⟩ := List.any_eq_true.mp h
  obtain ⟨j, -, hj⟩ := List.any_eq_true.mp hi
  rw [splitCheck] at hj
  split at hj
  case h_2 => exact Bool.noConfusion hj
  case h_1 c rest heq =>
    simp only [Bool.and_eq_true, beq_iff_eq] at hj
    obtain ⟨hc, hj⟩ := hj
    subst hc
    split at hj
    case h_2 => exact Bool.noConfusion hj
    case h_1 d dig heq2 =>
      simp only [Bool.and_eq_true, beq_iff_eq] at hj
      obtain ⟨⟨⟨hd, hA⟩, hB⟩, hC⟩ := hj
      subst hd
      refine ⟨s.take i, rest.take j, dig, ?_, hA, hB, hC⟩
      have hr : rest = rest.take j ++ '@' :: dig := by
        rw [← heq2]
        exact (List.take_append_drop j rest).symm
      calc s = s.take i ++ s.drop i := (List.take_append_drop i s).symm
        _ = s.take i ++ '/' :: rest := by rw [heq]
        _ = s.take i ++ '/' :: (rest.take j ++ '@' :: dig) := by rw [← hr]

/-- C6 counterexample: the claim quantifies over every registryHost, but the
pattern's registry group needs at least the six-character shape
`[a-z]+.[a-z]+.[a-z].`; with host `x`, a repository matching the path grammar
and a digest that is literally `sha256:` plus 64 lowercase hex characters,
the validator still raises. -/
theorem short_host_roundtrip_fails :
    repoMatch "app".data = true ∧ literalSha256Digest exDigest.data = true ∧
      validate_image_id ("x" ++ "/" ++ "app" ++ "@" ++ exDigest) ≠ Except.ok () := by
  refine ⟨by decide, by decide, ?_⟩
  intro hok
  have hm : imageIdMatches ("x" ++ "/" ++ "app" ++ "@" ++ exDigest).data = false := by decide
  rw [validate_image_id, hm] at hok
  simp at hok

/-- C6 (amended): the identifier round trip holds once the registryHost is
constrained to the pattern's registry group `[a-z]+.[a-z]+.[a-z].`: for every
such host, every repository matching the path grammar and every digest of
the literal form `sha256:` plus 64 hexadecimal characters, the synthesized
canonical identifier validates successfully. -/
theorem image_id_roundtrip_validates (host repository : String) (hex : List Char)
    (hA : registryMatch host.data = true) (hB : repoMatch repository.data = true)
    (hlen : hex.length = 64) (hhex : hex.all isHexDigitChar = true) :
    validate_image_id (host ++ "/" ++ repository ++ "@" ++ ("sha256:" ++ String.mk hex)) =
      Except.ok () := by
  have h1 : "/".data = ['/'] := rfl
  have h2 : "@".data = ['@'] := rfl
  have h3 : (String.mk hex).data = hex := rfl
  have hdata : (host ++ "/" ++ repository ++ "@" ++ ("sha256:" ++ String.mk hex)).data =
      host.data ++ '/' :: (repository.data ++ '@' :: ("sha256:".data ++ hex)) := by
    simp only [String.data_append, h1, h2, h3]
    simp [List.append_assoc]
  have hm := imageIdMatches_of_parts host.data repository.data ("sha256:".data ++ hex)
    hA hB (digestMatch_sha256_hex hex hlen hhex)
  rw [validate_image_id, hdata, hm]
  rfl

/-- Witness for the amended C6 statement at a concrete input. -/
theorem image_id_roundtrip_validates_witness :
    validate_image_id ("myreg.azurecr.io" ++ "/" ++ "app" ++ "@" ++
        ("sha256:" ++ String.mk (List.replicate 64 '0'))) = Except.ok () :=
  image_id_roundtrip_validates "myreg.azurecr.io" "app" (List.replicate 64 '0')
    (by decide) (by decide) (by decide) (by decide)

/-- C7 counterexample: the validator accepts identifiers whose digest part is
not the literal `sha256:` prefix followed by exactly 64 hex characters: a
digest part `h:` plus 64 hex characters is accepted (`[sha256:]+` is a
repeated character class), and so is a digest part `sha256:` plus 64 hex
characters plus one trailing newline (the `$` anchor also matches just
before a final newline). -/
theorem class_digest_identifier_accepted :
    literalSha256Digest ("h:" ++ String.mk (List.replicate 64 '0')).data = false ∧
      validate_image_id ("abcdef" ++ "/" ++ "app" ++ "@" ++
          ("h:" ++ String.mk (List.replicate 64 '0'))) = Except.ok () ∧
      literalSha256Digest ("sha256:" ++ String.mk (List.replicate 64 '0') ++ "\n").data =
        false ∧
      validate_image_id ("abcdef" ++ "/" ++ "app" ++ "@" ++
          ("sha256:" ++ String.mk (List.replicate 64 '0') ++ "\n")) = Except.ok () := by
  refine ⟨by decide, ?_, by decide, ?_⟩
  · have hm : imageIdMatches ("abcdef" ++ "/" ++ "app" ++ "@" ++
        ("h:" ++ String.mk (List.replicate 64 '0'))).data = true := by decide
    rw [validate_image_id, hm]
    rfl
  · have hm : imageIdMatches ("abcdef" ++ "/" ++ "app" ++ "@" ++
        ("sha256:" ++ String.mk (List.replicate 64 '0') ++ "\n")).data = true := by decide
    rw [validate_image_id, hm]
    rfl

/-- C7 (amended): validation succeeds only when the whole string decomposes
as `<registry>/<repository>@<digest>` with the registry group, the path
grammar, and a digest matching `[sha256:]+` followed by exactly 64 hex
characters and then the `$` anchor (end of input or one trailing newline) —
a strictly larger digest language than the literal `sha256:` prefix and
exact-64-hex ending the claim states. -/
theorem validate_ok_decomposition (s : String)
    (h : validate_image_id s = Except.ok ()) :
    ∃ A B C, s.data = A ++ '/' :: (B ++ '@' :: C) ∧
      registryMatch A = true ∧ repoMatch B = true ∧ digestMatch C = true := by
  have hm : imageIdMatches s.data = true := by
    by_cases hb : imageIdMatches s.data = true
    · exact hb
    · replace hb : imageIdMatches s.data = false := Bool.not_eq_true _ ▸ hb
      simp [validate_image_id, hb] at h
  exact imageIdMatches_elim s.data hm

/-- Witness for the amended C7 statement at a concrete input. -/
theorem validate_ok_decomposition_witness :
    ∃ A B C, ("abcdef" ++ "/" ++ "app" ++ "@" ++
        ("sha256:" ++ String.mk (List.replicate 64 '0'))).data =
          A ++ '/' :: (B ++ '@' :: C) ∧
      registryMatch A = true ∧ repoMatch B = true ∧ digestMatch C = true :=
  validate_ok_decomposition _ (by
    have hm : imageIdMatches ("abcdef" ++ "/" ++ "app" ++ "@" ++
        ("sha256:" ++ String.mk (List.replicate 64 '0'))).data = true := by decide
    rw [validate_image_id, hm]
    rfl)

/-- Witness for C3 at a concrete input: an eligible (over-age) manifest whose
identifier is deployed lands in the in-use list and not in the obsolete
list. -/
theorem fetch_partition_protection_witness :
    Image.make "app" exManifest.tags exManifest.digest
        (age_days exNow exManifest.last_updated_on) ∈ ([exImage] : List Image) ∧
      Image.make "app" exManifest.tags exManifest.digest
        (age_days exNow exManifest.last_updated_on) ∉ ([] : List Image) :=
  (fetch_partition_protection exNow 30 exUri [exId] [("app", [exManifest])] [] [exImage]
      "app" [exManifest] exManifest rfl (List.mem_singleton.mpr rfl) rfl
      (List.mem_singleton.mpr rfl) rfl).1 rfl

/-- Witness for C4 at a concrete input. -/
theorem fetch_excludes_exception_repositories_witness :
    is_exception_repository exImage.repository = false :=
  fetch_excludes_exception_repositories exNow 30 exUri [exId] [("app", [exManifest])]
    [] [exImage] rfl exImage (Or.inr (List.mem_singleton.mpr rfl))

def exManifestLatest : Manifest := ⟨some ["latest"], exDigest, 0⟩

/-- Witness for the amended C5 statement at a concrete input: threshold 0,
a tagged image one microsecond old is classified obsolete. -/
theorem cleanup_all_strictly_past_is_obsolete_witness :
    Image.make "app" exManifestLatest.tags exManifestLatest.digest
        (age_days 1 exManifestLatest.last_updated_on) ∈
      ([Image.make "app" (some ["latest"]) exDigest 0] : List Image) :=
  cleanup_all_strictly_past_is_obsolete 1 exUri [] [("app", [exManifestLatest])]
    [Image.make "app" (some ["latest"]) exDigest 0] [] "app" [exManifestLatest]
    exManifestLatest ["latest"] rfl (List.mem_singleton.mpr rfl) rfl
    (List.mem_singleton.mpr rfl) rfl (by decide) (by decide) rfl

def exManifestD1 : Manifest := ⟨none, exDigest, 0⟩

def exManifestD2 : Manifest := ⟨none, exDigest2, 0⟩

/-- Witness for C9 at a concrete input: swapping two dangling manifests
permutes the obsolete output. -/
theorem fetch_perm_invariant_witness :
    ∃ o₂ p₂,
      fetch_obsolete_images 0 30 exUri [] [("app", [exManifestD2, exManifestD1])] =
        Except.ok (o₂, p₂) ∧
        ([Image.make "app" none exDigest 0, Image.make "app" none exDigest2 0]).Perm o₂ ∧
        ([] : List Image).Perm p₂ :=
  fetch_perm_invariant 0 30 exUri [] [("app", [exManifestD1, exManifestD2])]
    [("app", [exManifestD2, exManifestD1])]
    [Image.make "app" none exDigest 0, Image.make "app" none exDigest2 0] []
    (by decide) rfl
